import Mathlib

/-!
Verification of the Goodman wavelength-calibration engine.

Shallow embedding of `src/goodman_spec/wavelength.py` (class `WavelengthCalibration`)
over exact rationals.  Intensities, pixel marks and wavelengths are modelled as `ℚ`;
the numpy/scipy/astropy library calls the source makes (`np.where`, `np.median`,
`scipy.signal.argrelmax`, `astropy.stats.sigma_clip`, `np.linspace`,
`scipy.signal.medfilt`) are embedded by their documented semantics.  The masked
(`None`-filled) array used for the peak search is embedded as `List (Option ℚ)`
with the Python-2 ordering in which `None` compares below every number.
-/

namespace Goodman

/-! ## Small numpy helpers -/

/-- Embedding of `np.min` of a spectrum (`0` on the empty list, which the source never hits). -/
def listMinD (l : List ℚ) : ℚ :=
  match l with
  | [] => 0
  | x :: xs => xs.foldl min x

/-- Embedding of `np.max` of a spectrum (`0` on the empty list, which the source never hits). -/
def listMaxD (l : List ℚ) : ℚ :=
  match l with
  | [] => 0
  | x :: xs => xs.foldl max x

/-- Embedding of `np.median`: sort, take the middle element, or the mean of the two middle
elements for an even number of samples. -/
def npMedian (l : List ℚ) : ℚ :=
  let s := List.insertionSort (· ≤ ·) l
  if s.length % 2 = 1 then s.getD ((s.length - 1) / 2) 0
  else (s.getD (s.length / 2 - 1) 0 + s.getD (s.length / 2) 0) / 2

/-- Index of the first minimum (`np.argmin`), accumulator form. -/
def argminGo : List ℚ → ℚ → ℕ → ℕ → ℕ
  | [], _, bestIdx, _ => bestIdx
  | y :: ys, best, bestIdx, i =>
    if y < best then argminGo ys y i (i + 1) else argminGo ys best bestIdx (i + 1)

/-- Embedding of `np.argmin`: index of the first minimal element (`0` on the empty list,
where numpy raises instead; callers guard for that). -/
def argminList (l : List ℚ) : ℕ :=
  match l with
  | [] => 0
  | x :: xs => argminGo xs x 0 1

/-- Embedding of `np.argmin(abs(l - x))`: index of the entry of `l` closest to `x`. -/
def argminAbsDist (l : List ℚ) (x : ℚ) : ℕ :=
  argminList (l.map (fun v => |v - x|))

/-! ## LineDetector: `get_lines_in_lamp` (wavelength.py:243-274) and
`recenter_lines` (wavelength.py:276-338) -/

/-- Threshold actually applied by `get_lines_in_lamp` (wavelength.py:253):
`self.lamp_data.min() + 0.05 * self.lamp_data.max()`. -/
def lampThreshold (data : List ℚ) : ℚ :=
  listMinD data + (5 / 100) * listMaxD data

/-- The threshold as the specification words it: `min + 0.05·(max − min)`.
Kept for comparison with `lampThreshold`; the source computes `min + 0.05·max`. -/
def specThreshold (data : List ℚ) : ℚ :=
  listMinD data + (5 / 100) * (listMaxD data - listMinD data)

/-- wavelength.py:253-255: `np.where(np.abs(lamp_data > min + 0.05*max), lamp_data, None)`.
`np.abs` of a boolean array is the identity, so a sample is kept exactly when it is
strictly above the threshold; all other samples become `None`. -/
def filteredData (data : List ℚ) : List (Option ℚ) :=
  data.map (fun v => if v > lampThreshold data then some v else none)

/-- Python-2 `>` on the `None`-filled array: `None` compares below every number. -/
def optGT : Option ℚ → Option ℚ → Bool
  | some a, some b => decide (b < a)
  | some _, none => true
  | none, _ => false

/-- One point of `scipy.signal.argrelmax(filtered_data, axis=0, order=6)`
(wavelength.py:256): `i` is a relative maximum when it is strictly greater than
each of its 6 neighbours on both sides, indices clipped at the boundaries
(the default clip mode). -/
def isRelMax (f : List (Option ℚ)) (i : ℕ) : Bool :=
  (List.range' 1 6).all (fun s =>
    optGT (f.getD i none) (f.getD (min (i + s) (f.length - 1)) none) &&
    optGT (f.getD i none) (f.getD (i - s) none))

/-- Embedding of `scipy.signal.argrelmax(..., order=6)[0]`: the indices of relative maxima,
in increasing order. -/
def argrelmax (f : List (Option ℚ)) : List ℕ :=
  (List.range f.length).filter (fun i => isRelMax f i)

/-- Left scan of `recenter_lines` (wavelength.py:289-300), fuel-indexed so the
kernel can evaluate it; the fuel is always at least the iteration count.
State `(idx, limit)` mirrors `(left_index, left_limit)`; the loop runs while
`left_index - 2 > 0`, stops when the two samples looking outward both increase
or the sample falls below the median, and returns `(left_limit, left_index)`. -/
def leftScanAux (data : List ℚ) (med : ℚ) : ℕ → ℕ → ℕ → ℕ × ℕ
  | 0, idx, limit => (limit, idx)
  | fuel + 1, idx, limit =>
    if 2 < idx then
      if data.getD (idx - 1) 0 > data.getD idx 0 ∧ data.getD (idx - 2) 0 > data.getD (idx - 1) 0 then
        (idx, idx - 1)
      else if data.getD idx 0 < med then
        (idx, idx - 1)
      else
        leftScanAux data med fuel (idx - 1) idx
    else (limit, idx)

/-- Right scan of `recenter_lines` (wavelength.py:303-314), fuel-indexed.
The loop runs while `right_index + 2 < x_size - 1` and mirrors the left scan. -/
def rightScanAux (data : List ℚ) (med : ℚ) (xsize : ℕ) : ℕ → ℕ → ℕ → ℕ × ℕ
  | 0, idx, limit => (limit, idx)
  | fuel + 1, idx, limit =>
    if idx + 2 < xsize - 1 then
      if data.getD (idx + 1) 0 > data.getD idx 0 ∧ data.getD (idx + 2) 0 > data.getD (idx + 1) 0 then
        (idx, idx + 1)
      else if data.getD idx 0 < med then
        (idx, idx + 1)
      else
        rightScanAux data med xsize fuel (idx + 1) idx
    else (limit, idx)

/-- The pair `(left_limit, left_index)` after the left scan for peak `p`
(initial values `left_limit = 0`, `left_index = line`). -/
def lineLeftScan (data : List ℚ) (p : ℕ) : ℕ × ℕ :=
  leftScanAux data (npMedian data) (p + 1) p 0

/-- The pair `(right_limit, right_index)` after the right scan for peak `p`
(initial values `right_limit = 1`, `right_index = line`). -/
def lineRightScan (data : List ℚ) (p : ℕ) : ℕ × ℕ :=
  rightScanAux data (npMedian data) data.length (data.length + 1) p 1

/-- wavelength.py:315: `index_diff = [abs(line - left_index), abs(line - right_index)]`;
the window half-width is `min(index_diff)`.  Note the source uses the final scan
cursors `left_index` / `right_index`, not the recorded limits. -/
def lineWindowHalf (data : List ℚ) (p : ℕ) : ℕ :=
  min ((p : ℤ) - ((lineLeftScan data p).2 : ℤ)).natAbs
    ((p : ℤ) - ((lineRightScan data p).2 : ℤ)).natAbs

/-- wavelength.py:317-319: centroid over `range(line - d, line + d + 1)` zipped with
the slice `data[line - d : line + d + 1]`, as `sum(x·I)/sum(I)`. -/
def codeCentroid (data : List ℚ) (p : ℕ) : ℚ :=
  let d := lineWindowHalf data p
  let subX := List.range' (p - d) (2 * d + 1)
  let subData := (data.drop (p - d)).take (2 * d + 1)
  (List.zipWith (fun (x : ℕ) (y : ℚ) => (x : ℚ) * y) subX subData).sum / subData.sum

/-- The intensity-weighted centroid over the pixel window `[a, b]` exactly as the
specification words it: `sum(pixel × intensity) / sum(intensity)`. -/
def specCentroid (data : List ℚ) (a b : ℕ) : ℚ :=
  (((List.range' a (b + 1 - a)).map (fun (i : ℕ) => (i : ℚ) * data.getD i 0)).sum) /
    (((List.range' a (b + 1 - a)).map (fun (i : ℕ) => data.getD i 0)).sum)

/-- The drop `|I(p) − I(left_limit)|` (wavelength.py:321). -/
def lineDiffLeft (data : List ℚ) (p : ℕ) : ℚ :=
  |data.getD p 0 - data.getD (lineLeftScan data p).1 0|

/-- The drop `|I(p) − I(right_limit)|` (wavelength.py:321). -/
def lineDiffRight (data : List ℚ) (p : ℕ) : ℚ :=
  |data.getD p 0 - data.getD (lineRightScan data p).1 0|

/-- Float semantics of `max(differences) / min(differences) >= 2.`
(wavelength.py:322): when `min = 0 < max` the quotient is `+inf` and the test
holds; when both are `0` it is `nan` and the test fails; otherwise it is the
exact quotient. -/
def asymRatioGE2 (mn mx : ℚ) : Bool :=
  if mn = 0 then decide (0 < mx) else decide (2 ≤ mx / mn)

/-- One iteration of the loop body of `recenter_lines` (wavelength.py:285-327)
for a single peak `line`: an asymmetric line keeps the raw peak (shifted to
1-based), otherwise the centroid (shifted to 1-based) is used. -/
def recenterOne (data : List ℚ) (line : ℕ) : ℚ :=
  if asymRatioGE2 (min (lineDiffLeft data line) (lineDiffRight data line))
      (max (lineDiffLeft data line) (lineDiffRight data line)) then
    (line : ℚ) + 1
  else
    codeCentroid data line + 1

/-- Embedding of `recenter_lines(data, lines)` (wavelength.py:276-338): the per-peak loop
appends one recentred position per input peak, i.e. a map. -/
def recenter_lines (data : List ℚ) (lines : List ℕ) : List ℚ :=
  lines.map (fun line => recenterOne data line)

/-- Embedding of `get_lines_in_lamp` (wavelength.py:243-274): threshold-mask the lamp, find
relative maxima of order 6, recentre them. -/
def get_lines_in_lamp (data : List ℚ) : List ℚ :=
  recenter_lines data (argrelmax (filteredData data))

/-! ## Claim C1 -/

lemma filteredData_length (data : List ℚ) : (filteredData data).length = data.length := by
  simp [filteredData]

lemma filteredData_getD (data : List ℚ) (i : ℕ) (h : i < data.length) :
    (filteredData data).getD i none =
      if data.getD i 0 > lampThreshold data then some (data.getD i 0) else none := by
  unfold filteredData
  rw [List.getD_eq_getElem _ _ (by simpa using h), List.getElem_map,
    List.getD_eq_getElem _ _ h]

lemma optGT_none_left (x : Option ℚ) : optGT none x = false := rfl

/-- Claim C1, amended: the mask threshold the source applies is
`min + 0.05·max` (wavelength.py:253), not `min + 0.05·(max − min)`, and a sample
exactly at the threshold is masked.  With that correction: a sample is masked
iff it is at or below `min + 0.05·max`, and every peak reported by the order-6
relative-maximum search lies strictly above that threshold. -/
theorem C1_threshold_masking (data : List ℚ) (_hne : data ≠ []) :
    (∀ i, i < data.length →
      ((filteredData data).getD i none = none ↔ data.getD i 0 ≤ lampThreshold data)) ∧
    (∀ p ∈ argrelmax (filteredData data),
      p < data.length ∧ lampThreshold data < data.getD p 0) := by
  constructor
  · intro i h
    rw [filteredData_getD data i h]
    by_cases hgt : data.getD i 0 > lampThreshold data
    · rw [if_pos hgt]
      exact iff_of_false (by simp) (not_le.mpr hgt)
    · rw [if_neg hgt]
      exact iff_of_true rfl (not_lt.mp hgt)
  · intro p hp
    rw [argrelmax, List.mem_filter, List.mem_range, filteredData_length] at hp
    obtain ⟨hlt, hmax⟩ := hp
    refine ⟨hlt, ?_⟩
    unfold isRelMax at hmax
    rw [List.all_eq_true] at hmax
    have h1 := hmax 1 (by decide)
    rw [Bool.and_eq_true] at h1
    by_cases hgt : data.getD p 0 > lampThreshold data
    · exact hgt
    · exfalso
      have hfp := filteredData_getD data p hlt
      rw [if_neg hgt] at hfp
      rw [hfp] at h1
      simpa [optGT] using h1.1

/-- Claim C1, counterexample to the stated threshold: for the spectrum
`[2.15, 4, 2]` the spec threshold `min + 0.05·(max − min) = 2.1` lies below the
first sample, so the claim says that sample survives the mask, yet the source
(threshold `min + 0.05·max = 2.2`) masks it out. -/
theorem C1_counterexample :
    (filteredData [43/20, 4, 2]).getD 0 (some 0) = none ∧
    specThreshold [43/20, 4, 2] ≤ (43/20 : ℚ) := by
  constructor
  · norm_num [filteredData, lampThreshold, listMinD, listMaxD, min_def, max_def]
  · norm_num [specThreshold, listMinD, listMaxD, min_def, max_def]

/-- Witness for `C1_threshold_masking` at the concrete spectrum `[2.15, 4, 2]`. -/
theorem C1_threshold_masking_witness :
    ([43/20, 4, 2] : List ℚ) ≠ [] ∧
    ((filteredData [43/20, 4, 2]).getD 1 none = none ↔
      ([43/20, 4, 2] : List ℚ).getD 1 0 ≤ lampThreshold [43/20, 4, 2]) :=
  ⟨by simp, (C1_threshold_masking [43/20, 4, 2] (by simp)).1 1 (by simp)⟩

/-! ## Claim C2 -/

/-- The left-scan stop condition of wavelength.py:292-297: looking outward the two
next samples both increase, or the sample falls below the spectrum median. -/
def stopLeft (data : List ℚ) (med : ℚ) (j : ℕ) : Prop :=
  (data.getD (j - 1) 0 > data.getD j 0 ∧ data.getD (j - 2) 0 > data.getD (j - 1) 0) ∨
    data.getD j 0 < med

/-- The right-scan stop condition of wavelength.py:306-311. -/
def stopRight (data : List ℚ) (med : ℚ) (j : ℕ) : Prop :=
  (data.getD (j + 1) 0 > data.getD j 0 ∧ data.getD (j + 2) 0 > data.getD (j + 1) 0) ∨
    data.getD j 0 < med

lemma leftScanAux_low (data : List ℚ) (med : ℚ) (fuel lim : ℕ) :
    leftScanAux data med fuel 2 lim = (lim, 2) := by
  cases fuel with
  | zero => rfl
  | succ f => simp [leftScanAux]

lemma leftScanAux_spec (data : List ℚ) (med : ℚ) :
    ∀ fuel idx lim : ℕ, idx ≤ fuel → 3 ≤ idx →
      ∃ L, leftScanAux data med fuel idx lim = (L, L - 1) ∧ 3 ≤ L ∧ L ≤ idx ∧
        (stopLeft data med L ∨ L = 3) ∧
        ∀ j, L < j → j ≤ idx → ¬ stopLeft data med j := by
  intro fuel
  induction fuel with
  | zero => intro idx lim h1 h2; omega
  | succ fuel ih =>
    intro idx lim hfuel hidx
    have h2 : 2 < idx := by omega
    by_cases hs1 : data.getD (idx - 1) 0 > data.getD idx 0 ∧
        data.getD (idx - 2) 0 > data.getD (idx - 1) 0
    · refine ⟨idx, ?_, by omega, le_refl _, Or.inl (Or.inl hs1), ?_⟩
      · simp only [leftScanAux, if_pos h2, if_pos hs1]
      · intro j hj1 hj2; omega
    · by_cases hs2 : data.getD idx 0 < med
      · refine ⟨idx, ?_, by omega, le_refl _, Or.inl (Or.inr hs2), ?_⟩
        · simp only [leftScanAux, if_pos h2, if_neg hs1, if_pos hs2]
        · intro j hj1 hj2; omega
      · have heval : leftScanAux data med (fuel + 1) idx lim =
            leftScanAux data med fuel (idx - 1) idx := by
          simp only [leftScanAux, if_pos h2, if_neg hs1, if_neg hs2]
        by_cases h3 : 3 ≤ idx - 1
        · obtain ⟨L, heq, hL3, hLle, hdisj, hall⟩ := ih (idx - 1) idx (by omega) h3
          refine ⟨L, by rw [heval, heq], hL3, by omega, hdisj, ?_⟩
          intro j hjL hjle
          by_cases hj : j ≤ idx - 1
          · exact hall j hjL hj
          · have hji : j = idx := by omega
            subst hji
            intro hstop
            rcases hstop with h | h
            · exact hs1 h
            · exact hs2 h
        · have hidx3 : idx = 3 := by omega
          subst hidx3
          refine ⟨3, ?_, le_refl _, le_refl _, Or.inr rfl, ?_⟩
          · rw [heval]
            exact leftScanAux_low data med fuel 3
          · intro j hj1 hj2; omega

lemma rightScanAux_low (data : List ℚ) (med : ℚ) (xsize fuel idx lim : ℕ)
    (h : ¬ idx + 2 < xsize - 1) :
    rightScanAux data med xsize fuel idx lim = (lim, idx) := by
  cases fuel with
  | zero => rfl
  | succ f => simp only [rightScanAux, if_neg h]

lemma rightScanAux_spec (data : List ℚ) (med : ℚ) (xsize : ℕ) :
    ∀ fuel idx lim : ℕ, xsize ≤ idx + fuel → idx + 3 < xsize →
      ∃ R, rightScanAux data med xsize fuel idx lim = (R, R + 1) ∧ idx ≤ R ∧
        R + 3 < xsize ∧ (stopRight data med R ∨ R + 4 = xsize) ∧
        ∀ j, idx ≤ j → j < R → ¬ stopRight data med j := by
  intro fuel
  induction fuel with
  | zero => intro idx lim h1 h2; omega
  | succ fuel ih =>
    intro idx lim hfuel hidx
    have hg : idx + 2 < xsize - 1 := by omega
    by_cases hs1 : data.getD (idx + 1) 0 > data.getD idx 0 ∧
        data.getD (idx + 2) 0 > data.getD (idx + 1) 0
    · refine ⟨idx, ?_, le_refl _, by omega, Or.inl (Or.inl hs1), ?_⟩
      · simp only [rightScanAux, if_pos hg, if_pos hs1]
      · intro j hj1 hj2; omega
    · by_cases hs2 : data.getD idx 0 < med
      · refine ⟨idx, ?_, le_refl _, by omega, Or.inl (Or.inr hs2), ?_⟩
        · simp only [rightScanAux, if_pos hg, if_neg hs1, if_pos hs2]
        · intro j hj1 hj2; omega
      · have heval : rightScanAux data med xsize (fuel + 1) idx lim =
            rightScanAux data med xsize fuel (idx + 1) idx := by
          simp only [rightScanAux, if_pos hg, if_neg hs1, if_neg hs2]
        by_cases h4 : idx + 1 + 3 < xsize
        · obtain ⟨R, heq, hRge, hRlt, hdisj, hall⟩ := ih (idx + 1) idx (by omega) h4
          refine ⟨R, by rw [heval, heq], by omega, hRlt, hdisj, ?_⟩
          intro j hj1 hj2
          by_cases hj : idx + 1 ≤ j
          · exact hall j hj hj2
          · have hji : j = idx := by omega
            subst hji
            intro hstop
            rcases hstop with h | h
            · exact hs1 h
            · exact hs2 h
        · have hxs : xsize = idx + 4 := by omega
          refine ⟨idx, ?_, le_refl _, by omega, Or.inr (by omega), ?_⟩
          · rw [heval]
            exact rightScanAux_low data med xsize fuel (idx + 1) idx (by omega)
          · intro j hj1 hj2; omega

lemma slice_sums (data : List ℚ) :
    ∀ (n lo : ℕ), lo + n ≤ data.length →
      (List.zipWith (fun (x : ℕ) (y : ℚ) => (x : ℚ) * y) (List.range' lo n)
          ((data.drop lo).take n)).sum =
        ((List.range' lo n).map (fun (i : ℕ) => (i : ℚ) * data.getD i 0)).sum ∧
      ((data.drop lo).take n).sum =
        ((List.range' lo n).map (fun (i : ℕ) => data.getD i 0)).sum := by
  intro n
  induction n with
  | zero => intro lo h; simp
  | succ n ih =>
    intro lo h
    have hlo : lo < data.length := by omega
    have hdrop : data.drop lo = data[lo] :: data.drop (lo + 1) :=
      List.drop_eq_getElem_cons hlo
    have hgetD : data[lo] = data.getD lo 0 := (List.getD_eq_getElem data 0 hlo).symm
    obtain ⟨ih1, ih2⟩ := ih (lo + 1) (by omega)
    constructor
    · rw [List.range'_succ, hdrop, List.take_succ_cons, List.zipWith_cons_cons,
        List.sum_cons, List.map_cons, List.sum_cons, ih1, hgetD]
    · rw [List.range'_succ, hdrop, List.take_succ_cons, List.sum_cons,
        List.map_cons, List.sum_cons, ih2, hgetD]

/-- Claim C2, amended: the scans and their recorded limits behave as claimed, but
the half-width of the centroid window is computed from the final scan cursors
`left_index` / `right_index` (wavelength.py:315), which sit one pixel beyond the
recorded `left_limit` / `right_limit`; hence `d = min(|p − left_limit|,
|p − right_limit|) + 1`, and for a symmetric line the returned value is the
intensity-weighted centroid over `[p − d, p + d]` (1-based). -/
theorem C2_recentring (data : List ℚ) (p : ℕ) (h3 : 3 ≤ p) (hlen : p + 3 < data.length) :
    ∃ L R,
      lineLeftScan data p = (L, L - 1) ∧ lineRightScan data p = (R, R + 1) ∧
      3 ≤ L ∧ L ≤ p ∧ p ≤ R ∧ R + 3 < data.length ∧
      (stopLeft data (npMedian data) L ∨ L = 3) ∧
      (∀ j, L < j → j ≤ p → ¬ stopLeft data (npMedian data) j) ∧
      (stopRight data (npMedian data) R ∨ R + 4 = data.length) ∧
      (∀ j, p ≤ j → j < R → ¬ stopRight data (npMedian data) j) ∧
      lineWindowHalf data p = min (p - L) (R - p) + 1 ∧
      (asymRatioGE2 (min (lineDiffLeft data p) (lineDiffRight data p))
          (max (lineDiffLeft data p) (lineDiffRight data p)) = false →
        recenterOne data p =
          specCentroid data (p - lineWindowHalf data p) (p + lineWindowHalf data p) + 1) := by
  obtain ⟨L, hLeq, hL3, hLle, hLdisj, hLall⟩ :=
    leftScanAux_spec data (npMedian data) (p + 1) p 0 (by omega) h3
  obtain ⟨R, hReq, hRge, hRlt, hRdisj, hRall⟩ :=
    rightScanAux_spec data (npMedian data) data.length (data.length + 1) p 1
      (by omega) hlen
  have hLS : lineLeftScan data p = (L, L - 1) := hLeq
  have hRS : lineRightScan data p = (R, R + 1) := hReq
  have hwin : lineWindowHalf data p = min (p - L) (R - p) + 1 := by
    rw [lineWindowHalf, hLS, hRS]
    omega
  refine ⟨L, R, hLS, hRS, hL3, hLle, hRge, hRlt, hLdisj, hLall, hRdisj, hRall, hwin, ?_⟩
  intro hasym
  have hd : lineWindowHalf data p ≤ p ∧ p + lineWindowHalf data p + 1 ≤ data.length := by
    rw [hwin]; omega
  rw [recenterOne, hasym]
  simp only [Bool.false_eq_true, if_false]
  congr 1
  rw [codeCentroid, specCentroid]
  have hrange : p + lineWindowHalf data p + 1 - (p - lineWindowHalf data p) =
      2 * lineWindowHalf data p + 1 := by omega
  rw [hrange]
  obtain ⟨hs1, hs2⟩ := slice_sums data (2 * lineWindowHalf data p + 1)
    (p - lineWindowHalf data p) (by omega)
  rw [hs1, hs2]

/-- The spectrum used as concrete counterexample input for claim C2
(peak at 0-based pixel 4, median 5). -/
def dC2 : List ℚ := [5, 8, 6, 4, 9, 4, 3, 5, 7, 5]

/-- Claim C2, counterexample: at the peak `p = 4` of `dC2` the scans record
`left_limit = 3` and `right_limit = 5`, so the claimed half-width is
`min(|4−3|, |4−5|) = 1` and the claimed result is the centroid over `[3, 5]`
plus one, i.e. `5`; the source instead uses the scan cursors (`d = 2`,
window `[2, 6]`) and returns `62/13 ≠ 5`. -/
theorem C2_counterexample :
    recenter_lines dC2 [4] = [62/13] ∧
    (lineLeftScan dC2 4).1 = 3 ∧ (lineRightScan dC2 4).1 = 5 ∧
    min ((4 : ℤ) - 3).natAbs ((4 : ℤ) - 5).natAbs = 1 ∧
    specCentroid dC2 (4 - 1) (4 + 1) + 1 = 5 ∧
    ((62 : ℚ)/13) ≠ 5 := by
  have hmed : npMedian dC2 = 5 := by
    norm_num [npMedian, dC2, List.insertionSort, List.orderedInsert]
  have hL : lineLeftScan dC2 4 = (3, 2) := by
    simp only [lineLeftScan, hmed]
    norm_num [leftScanAux, dC2]
  have hR : lineRightScan dC2 4 = (5, 6) := by
    simp only [lineRightScan, hmed]
    norm_num [rightScanAux, dC2]
  have hwin : lineWindowHalf dC2 4 = 2 := by
    rw [lineWindowHalf, hL, hR]
    decide
  have hdl : lineDiffLeft dC2 4 = 5 := by
    rw [lineDiffLeft, hL]
    norm_num [dC2]
  have hdr : lineDiffRight dC2 4 = 5 := by
    rw [lineDiffRight, hR]
    norm_num [dC2]
  have hcen : codeCentroid dC2 4 = 49/13 := by
    simp only [codeCentroid, hwin]
    norm_num [dC2, List.range']
  have hrec : recenterOne dC2 4 = 62/13 := by
    rw [recenterOne, hdl, hdr]
    norm_num [asymRatioGE2, hcen]
  refine ⟨?_, by rw [hL], by rw [hR], by decide, ?_, by norm_num⟩
  · simp [recenter_lines, hrec]
  · norm_num [specCentroid, dC2, List.range']

/-- Witness for `C2_recentring` at the concrete spectrum `dC2`, peak 4. -/
theorem C2_recentring_witness :
    3 ≤ 4 ∧ 4 + 3 < dC2.length ∧
    (∃ L R,
      lineLeftScan dC2 4 = (L, L - 1) ∧ lineRightScan dC2 4 = (R, R + 1) ∧
      3 ≤ L ∧ L ≤ 4 ∧ 4 ≤ R ∧ R + 3 < dC2.length ∧
      (stopLeft dC2 (npMedian dC2) L ∨ L = 3) ∧
      (∀ j, L < j → j ≤ 4 → ¬ stopLeft dC2 (npMedian dC2) j) ∧
      (stopRight dC2 (npMedian dC2) R ∨ R + 4 = dC2.length) ∧
      (∀ j, 4 ≤ j → j < R → ¬ stopRight dC2 (npMedian dC2) j) ∧
      lineWindowHalf dC2 4 = min (4 - L) (R - 4) + 1 ∧
      (asymRatioGE2 (min (lineDiffLeft dC2 4) (lineDiffRight dC2 4))
          (max (lineDiffLeft dC2 4) (lineDiffRight dC2 4)) = false →
        recenterOne dC2 4 =
          specCentroid dC2 (4 - lineWindowHalf dC2 4) (4 + lineWindowHalf dC2 4) + 1)) :=
  ⟨by omega, by norm_num [dC2], C2_recentring dC2 4 (by omega) (by norm_num [dC2])⟩

/-! ## Claim C3 -/

lemma asymRatioGE2_iff (mn mx : ℚ) (h0 : 0 ≤ mn) (hle : mn ≤ mx) :
    asymRatioGE2 mn mx = true ↔ (2 * mn ≤ mx ∧ 0 < mx) := by
  unfold asymRatioGE2
  by_cases h : mn = 0
  · subst h
    rw [if_pos rfl, decide_eq_true_eq]
    constructor
    · intro h1
      exact ⟨by linarith, h1⟩
    · intro h1
      exact h1.2
  · have hpos : 0 < mn := lt_of_le_of_ne h0 (Ne.symm h)
    rw [if_neg h, decide_eq_true_eq, le_div_iff₀ hpos]
    constructor
    · intro h1
      refine ⟨by linarith, by linarith⟩
    · intro h1
      linarith [h1.1]

/-- Claim C3: a detected peak whose flank intensity drops satisfy
`max(|I(p)−I(left_limit)|, |I(p)−I(right_limit)|) / min(...) ≥ 2` is reported at
the raw peak pixel `p + 1`; otherwise the centroid plus one is reported; every
reported position is the 0-based quantity plus one, i.e. 1-based.  (The division
follows float semantics: `min = 0 < max` gives `+inf ≥ 2`, `0/0 = nan` fails the
test, so the guard is `2·min ≤ max ∧ 0 < max`.) -/
theorem C3_reported_positions (data : List ℚ) (lines : List ℕ) (i : ℕ)
    (h : i < lines.length) :
    (recenter_lines data lines).getD i 0 =
      (if 2 * min (lineDiffLeft data (lines.getD i 0)) (lineDiffRight data (lines.getD i 0)) ≤
            max (lineDiffLeft data (lines.getD i 0)) (lineDiffRight data (lines.getD i 0)) ∧
          0 < max (lineDiffLeft data (lines.getD i 0)) (lineDiffRight data (lines.getD i 0)) then
        ((lines.getD i 0 : ℕ) : ℚ)
      else codeCentroid data (lines.getD i 0)) + 1 := by
  have hp : lines.getD i 0 = lines[i] := List.getD_eq_getElem lines 0 h
  have hmap : (recenter_lines data lines).getD i 0 = recenterOne data (lines.getD i 0) := by
    unfold recenter_lines
    rw [List.getD_eq_getElem _ _ (by simpa using h), List.getElem_map, hp]
  rw [hmap, recenterOne]
  have h0 : 0 ≤ min (lineDiffLeft data (lines.getD i 0)) (lineDiffRight data (lines.getD i 0)) :=
    le_min (abs_nonneg _) (abs_nonneg _)
  have hiff := asymRatioGE2_iff
    (min (lineDiffLeft data (lines.getD i 0)) (lineDiffRight data (lines.getD i 0)))
    (max (lineDiffLeft data (lines.getD i 0)) (lineDiffRight data (lines.getD i 0)))
    h0 (min_le_max)
  by_cases hb : asymRatioGE2
      (min (lineDiffLeft data (lines.getD i 0)) (lineDiffRight data (lines.getD i 0)))
      (max (lineDiffLeft data (lines.getD i 0)) (lineDiffRight data (lines.getD i 0))) = true
  · rw [if_pos hb, if_pos (hiff.mp hb)]
  · rw [if_neg hb, if_neg (fun hc => hb (hiff.mpr hc))]

/-- Witness for `C3_reported_positions` at `dC2`, peak list `[4]`. -/
theorem C3_reported_positions_witness :
    0 < ([4] : List ℕ).length ∧
    (recenter_lines dC2 [4]).getD 0 0 =
      (if 2 * min (lineDiffLeft dC2 (([4] : List ℕ).getD 0 0))
            (lineDiffRight dC2 (([4] : List ℕ).getD 0 0)) ≤
            max (lineDiffLeft dC2 (([4] : List ℕ).getD 0 0))
              (lineDiffRight dC2 (([4] : List ℕ).getD 0 0)) ∧
          0 < max (lineDiffLeft dC2 (([4] : List ℕ).getD 0 0))
              (lineDiffRight dC2 (([4] : List ℕ).getD 0 0)) then
        ((([4] : List ℕ).getD 0 0 : ℕ) : ℚ)
      else codeCentroid dC2 (([4] : List ℕ).getD 0 0)) + 1 :=
  ⟨by decide, C3_reported_positions dC2 [4] 0 (by decide)⟩

/-! ## Interactive session state (class attributes of `WavelengthCalibration`)

The marks lists are `reference_marks_x/y` and `raw_data_marks_x/y`
(wavelength.py:87-90); `wsolution` is the currently fitted dispersion model (a
callable pixel→wavelength, wavelength.py:63); `rms_error` stores the evaluation
quality (wavelength.py:64; the source stores `sqrt` of the mean square, we store
the mean square itself, see `EvalResult`); `lines_center` are the detected lamp
lines and `refLines` the reference catalog for the current lamp (owned by the
external `ReferenceData` collaborator). -/

structure Session where
  reference_marks_x : List ℚ
  reference_marks_y : List ℚ
  raw_data_marks_x : List ℚ
  raw_data_marks_y : List ℚ
  wsolution : Option (ℚ → ℚ)
  rms_error : Option ℚ
  lines_center : List ℚ
  refLines : List ℚ

/-- The user-facing failure messages the session handlers emit
(`display_onscreen_message` / `log.error` calls in wavelength.py). -/
inductive UserMessage where
  | notEnoughMarks
  | referenceMissing (n : ℕ)
  | rawMissing (n : ℕ)
  | clicksRecordEmpty
  | solutionNonExistent
deriving DecidableEq

/-- Python `list.pop(i)`: removal of the `i`-th element; `none` models the
`IndexError` raised for an out-of-range index. -/
def listPop {α : Type} (l : List α) (i : ℕ) : Option (List α) :=
  if i < l.length then some (l.eraseIdx i) else none

/-! ## Claim C4: the delete handlers of `key_pressed` (wavelength.py:716-768) -/

/-- The delete key with the cursor over the raw-data (pixel) panel
(wavelength.py:719-742).  `closer_index` is `argmin |raw_marks_x - x|`; with
index-aligned sides a full pair is popped; with differing side counts only the
raw entry is popped when it is the last one, otherwise a full pair is popped
(an out-of-range pop on the shorter side is an `IndexError`, modelled `none`).
The empty-marks case is the numpy `argmin` error on an empty list, also `none`. -/
def delete_raw_mark (st : Session) (x : ℚ) : Option Session :=
  if st.raw_data_marks_x.isEmpty then none
  else
    let i := argminAbsDist st.raw_data_marks_x x
    if st.raw_data_marks_x.length = st.reference_marks_x.length then do
      let rx ← listPop st.raw_data_marks_x i
      let ry ← listPop st.raw_data_marks_y i
      let fx ← listPop st.reference_marks_x i
      let fy ← listPop st.reference_marks_y i
      pure { st with raw_data_marks_x := rx, raw_data_marks_y := ry,
                     reference_marks_x := fx, reference_marks_y := fy }
    else if i = st.raw_data_marks_x.length - 1 then do
      let rx ← listPop st.raw_data_marks_x i
      let ry ← listPop st.raw_data_marks_y i
      pure { st with raw_data_marks_x := rx, raw_data_marks_y := ry }
    else do
      let rx ← listPop st.raw_data_marks_x i
      let ry ← listPop st.raw_data_marks_y i
      let fx ← listPop st.reference_marks_x i
      let fy ← listPop st.reference_marks_y i
      pure { st with raw_data_marks_x := rx, raw_data_marks_y := ry,
                     reference_marks_x := fx, reference_marks_y := fy }

/-- The delete key with the cursor over the reference (wavelength) panel
(wavelength.py:744-768), mirror image of `delete_raw_mark`. -/
def delete_reference_mark (st : Session) (x : ℚ) : Option Session :=
  if st.reference_marks_x.isEmpty then none
  else
    let i := argminAbsDist st.reference_marks_x x
    if st.raw_data_marks_x.length = st.reference_marks_x.length then do
      let rx ← listPop st.raw_data_marks_x i
      let ry ← listPop st.raw_data_marks_y i
      let fx ← listPop st.reference_marks_x i
      let fy ← listPop st.reference_marks_y i
      pure { st with raw_data_marks_x := rx, raw_data_marks_y := ry,
                     reference_marks_x := fx, reference_marks_y := fy }
    else if i = st.reference_marks_x.length - 1 then do
      let fx ← listPop st.reference_marks_x i
      let fy ← listPop st.reference_marks_y i
      pure { st with reference_marks_x := fx, reference_marks_y := fy }
    else do
      let rx ← listPop st.raw_data_marks_x i
      let ry ← listPop st.raw_data_marks_y i
      let fx ← listPop st.reference_marks_x i
      let fy ← listPop st.reference_marks_y i
      pure { st with raw_data_marks_x := rx, raw_data_marks_y := ry,
                     reference_marks_x := fx, reference_marks_y := fy }

/-! ## SolutionEvaluator: `evaluate_solution` (wavelength.py:975-1075) -/

/-- Embedding of `np.mean` (`0` on the empty list, where numpy produces `nan`). -/
def npMean (l : List ℚ) : ℚ := l.sum / l.length

/-- Embedding of `np.var` and of `np.ma.std` squared: population variance, `ddof = 0`. -/
def npVar (l : List ℚ) : ℚ := npMean (l.map (fun x => (x - npMean l) ^ 2))

/-- The unmasked values of a masked array. -/
def survivorsOf (data : List ℚ) (mask : List Bool) : List ℚ :=
  (data.zip mask).filterMap (fun p => if p.2 then none else some p.1)

/-- One iteration of `astropy.stats.sigma_clip`: with `center = ma.median` and
`std = ma.std` of the currently unmasked values, additionally mask every value
`x` with `|x - center| > sigma * std`, i.e. `(x - center)² > sigma² · var`. -/
def clipStep (sigma : ℚ) (data : List ℚ) (mask : List Bool) : List Bool :=
  let surv := survivorsOf data mask
  let c := npMedian surv
  let v := npVar surv
  List.zipWith (fun x m => m || decide (sigma ^ 2 * v < (x - c) ^ 2)) data mask

def sigmaClipIter (sigma : ℚ) (data : List ℚ) : ℕ → List Bool → List Bool
  | 0, m => m
  | n + 1, m => sigmaClipIter sigma data n (clipStep sigma data m)

/-- Embedding of `astropy.stats.sigma_clip(data, sigma, iters, cenfunc=np.ma.median)`:
the rejection mask after `iters` clipping iterations starting from the all-false
mask (astropy runs exactly `iters` iterations; converged ones are no-ops). -/
def sigmaClipMask (sigma : ℚ) (iters : ℕ) (data : List ℚ) : List Bool :=
  sigmaClipIter sigma data iters (data.map (fun _ => false))

/-- The `wline - rline` matching of wavelength.py:999-1001: the catalog line closest
to `w` (first one on ties, as `np.argmin`). -/
def nearestReference (refs : List ℚ) (w : ℚ) : ℚ :=
  refs.getD (argminAbsDist refs w) 0

/-- The `differences` array built by the loop of wavelength.py:998-1003:
one residual `predicted − matched` per detected line. -/
def residualsOf (w : ℚ → ℚ) (lines refs : List ℚ) : List ℚ :=
  lines.map (fun c => w c - nearestReference refs (w c))

/-- Result triple of `evaluate_solution` (wavelength.py:1072).  The source
stores `rms_error = sqrt(sum(squares)/len(squares))`; `rms_sq` is the exact
radicand `sum(squares)/len(squares)`, from which the reported RMS is
`Real.sqrt rms_sq`. -/
structure EvalResult where
  rms_sq : ℚ
  npoints : ℕ
  n_rejections : ℕ
deriving DecidableEq

/-- Core computation of `evaluate_solution` (wavelength.py:994-1019) for a
present solution `w`: residuals against the nearest catalog lines, 5-iteration
sigma-2 clip, `npoints = len(clipped_differences)` (the full length),
`n_rejections = np.ma.count_masked`, and the mean of the squares of the
surviving residuals. -/
def evaluateCore (w : ℚ → ℚ) (lines refs : List ℚ) : EvalResult :=
  let differences := residualsOf w lines refs
  let clippedMask := sigmaClipMask 2 5 differences
  let sq := (survivorsOf differences clippedMask).map (fun d => d ^ 2)
  { rms_sq := sq.sum / sq.length
    npoints := differences.length
    n_rejections := clippedMask.count true }

/-- The `once_clipped_differences` mask of wavelength.py:1008: a single-iteration
clip of the same residuals.  It feeds only `ax4.set_ylim` (the display range of
the diagnostic plot, wavelength.py:1032) and no returned quantity. -/
def onceClippedMask (w : ℚ → ℚ) (lines refs : List ℚ) : List Bool :=
  sigmaClipMask 2 1 (residualsOf w lines refs)

/-- Embedding of `evaluate_solution` (wavelength.py:975-1075): with a fitted model it stores
the new RMS and returns the result triple; without one it only logs
the solution-non-existent error and returns `None`. -/
def evaluateSession (st : Session) : Option EvalResult × Session × Option UserMessage :=
  match st.wsolution with
  | some w =>
    let r := evaluateCore w st.lines_center st.refLines
    (some r, { st with rms_error := some r.rms_sq }, none)
  | none => (none, st, some UserMessage.solutionNonExistent)

/-! ## DispersionFitter gate: `fit_pixel_to_wavelength` (wavelength.py:1077-1127) -/

/-- Embedding of `fit_pixel_to_wavelength`: the fit itself (`wsbuilder.WavelengthFitter`,
a module not part of this source file) is abstracted as the argument `fitter`
applied to the pixel and angstrom mark lists.  The source requires both mark
lists non-empty, at least 4 marks on each side and equal lengths; a successful
fit immediately re-evaluates the solution (wavelength.py:1121).  With an empty
list on either side the source reports the empty-clicks-record condition and
resets any existing solution to `None` (wavelength.py:1123-1127). -/
def fit_pixel_to_wavelength (fitter : List ℚ → List ℚ → (ℚ → ℚ)) (st : Session) :
    Session × Option UserMessage :=
  if st.reference_marks_x.length ≠ 0 ∧ 0 < st.raw_data_marks_x.length then
    if st.reference_marks_x.length < 4 ∨ st.raw_data_marks_x.length < 4 then
      (st, some UserMessage.notEnoughMarks)
    else if st.reference_marks_x.length ≠ st.raw_data_marks_x.length then
      if st.reference_marks_x.length < st.raw_data_marks_x.length then
        (st, some (UserMessage.referenceMissing
          (st.raw_data_marks_x.length - st.reference_marks_x.length)))
      else
        (st, some (UserMessage.rawMissing
          (st.reference_marks_x.length - st.raw_data_marks_x.length)))
    else
      let f := fitter st.raw_data_marks_x st.reference_marks_x
      let st1 := { st with wsolution := some f }
      ((evaluateSession st1).2.1, none)
  else
    ({ st with wsolution := none }, some UserMessage.clicksRecordEmpty)

/-! ## Linearizer: `linearize_spectrum` (wavelength.py:1129-1177) -/

/-- Embedding of `np.linspace(a, b, n)`: `n` evenly spaced samples from `a` to `b` inclusive. -/
def linspace (a b : ℚ) (n : ℕ) : List ℚ :=
  (List.range n).map (fun (i : ℕ) => a + (b - a) * (i : ℚ) / ((n : ℚ) - 1))

/-- Median of three values. -/
def median3 (a b c : ℚ) : ℚ := max (min a b) (min (max a b) c)

/-- Embedding of `scipy.signal.medfilt(l)` with the default kernel size 3: each output sample
is the median of the zero-padded 3-neighbourhood. -/
def medfilt3 (l : List ℚ) : List ℚ :=
  (List.range l.length).map (fun i =>
    median3 (if i = 0 then 0 else l.getD (i - 1) 0) (l.getD i 0) (l.getD (i + 1) 0))

/-- Embedding of `linearize_spectrum(data)` (wavelength.py:1129-1177).  The cubic-spline
resampling (`scipy.interpolate.splrep`/`splev`) is abstracted as the external
function `splev`, mapping the native wavelength axis and the data to an
evaluation at one new abscissa; the uniform axis, the median smoothing and
the no-solution behaviour are embedded from the source.  Note the `None`
branch returns silently: no message is emitted when no solution exists. -/
def linearize_spectrum (splev : List ℚ → List ℚ → ℚ → ℚ) (st : Session)
    (data : List ℚ) : Option (List ℚ × List ℚ) × Session × Option UserMessage :=
  match st.wsolution with
  | some w =>
    let pixel_axis := List.range' 1 data.length
    let x_axis := pixel_axis.map (fun (p : ℕ) => w (p : ℚ))
    let new_x_axis := linspace (x_axis.getD 0 0) (x_axis.getD (x_axis.length - 1) 0)
      data.length
    let linearized_data := new_x_axis.map (fun nx => splev x_axis data nx)
    (some (new_x_axis, medfilt3 linearized_data), st, none)
  | none => (none, st, none)

/-! ## Claim C4: theorems -/

lemma getD_map' {α β : Type} (f : α → β) (l : List α) (j : ℕ) (d0 : α) (d : β)
    (h : j < l.length) : (l.map f).getD j d = f (l.getD j d0) := by
  rw [List.getD_eq_getElem _ _ (by simpa using h), List.getElem_map,
    List.getD_eq_getElem _ _ h]

lemma argminGo_spec (F : ℕ → ℚ) :
    ∀ (xs : List ℚ) (i bIdx : ℕ) (best : ℚ),
      (∀ k, k < xs.length → xs.getD k 0 = F (i + k)) → best = F bIdx → bIdx < i →
      argminGo xs best bIdx i < i + xs.length ∧
      F (argminGo xs best bIdx i) ≤ best ∧
      ∀ k, k < xs.length → F (argminGo xs best bIdx i) ≤ F (i + k) := by
  intro xs
  induction xs with
  | nil =>
    intro i bIdx best _ hbest hlt
    refine ⟨by simpa [argminGo] using hlt, by simp [argminGo, hbest], ?_⟩
    intro k hk
    simp at hk
  | cons y ys ih =>
    intro i bIdx best hvals hbest hlt
    have hy : y = F i := by simpa using hvals 0 (by simp)
    have hvals' : ∀ k, k < ys.length → ys.getD k 0 = F (i + 1 + k) := by
      intro k hk
      have := hvals (k + 1) (by simpa using Nat.succ_lt_succ hk)
      simpa [Nat.add_assoc, Nat.add_comm 1 k] using this
    by_cases hc : y < best
    · obtain ⟨h1, h2, h3⟩ := ih (i + 1) i y hvals' hy (by omega)
      have heval : argminGo (y :: ys) best bIdx i = argminGo ys y i (i + 1) := by
        simp [argminGo, hc]
      refine ⟨?_, ?_, ?_⟩
      · rw [heval]; simpa [Nat.add_assoc, Nat.add_comm 1 ys.length] using h1
      · rw [heval]; exact le_of_lt (lt_of_le_of_lt (hy ▸ h2) hc)
      · intro k hk
        rw [heval]
        cases k with
        | zero => simpa [hy] using h2
        | succ k =>
          have := h3 k (by simpa using hk)
          simpa [Nat.add_assoc, Nat.add_comm 1 k] using this
    · obtain ⟨h1, h2, h3⟩ := ih (i + 1) bIdx best hvals' hbest (by omega)
      have heval : argminGo (y :: ys) best bIdx i = argminGo ys best bIdx (i + 1) := by
        simp [argminGo, hc]
      refine ⟨?_, ?_, ?_⟩
      · rw [heval]; simpa [Nat.add_assoc, Nat.add_comm 1 ys.length] using h1
      · rw [heval]; exact h2
      · intro k hk
        rw [heval]
        cases k with
        | zero =>
          have hylower : best ≤ y := not_lt.mp hc
          simpa [hy] using le_trans h2 (hy ▸ hylower)
        | succ k =>
          have := h3 k (by simpa using hk)
          simpa [Nat.add_assoc, Nat.add_comm 1 k] using this

lemma argminList_spec (l : List ℚ) (h : l ≠ []) :
    argminList l < l.length ∧
    ∀ k, k < l.length → l.getD (argminList l) 0 ≤ l.getD k 0 := by
  match l, h with
  | x :: xs, _ =>
    have hvals : ∀ k, k < xs.length → xs.getD k 0 = (x :: xs).getD (1 + k) 0 := by
      intro k hk
      simp [Nat.add_comm 1 k]
    obtain ⟨h1, h2, h3⟩ := argminGo_spec (fun j => (x :: xs).getD j 0) xs 1 0 x hvals
      (by simp) (by omega)
    refine ⟨by simpa [argminList, Nat.add_comm 1 xs.length] using h1, ?_⟩
    intro k hk
    cases k with
    | zero => simpa [argminList] using h2
    | succ k =>
      have := h3 k (by simpa using Nat.lt_of_succ_lt_succ hk)
      simpa [argminList, Nat.add_comm 1 k] using this

lemma argminAbsDist_spec (l : List ℚ) (x : ℚ) (h : l ≠ []) :
    argminAbsDist l x < l.length ∧
    ∀ k, k < l.length →
      |l.getD (argminAbsDist l x) 0 - x| ≤ |l.getD k 0 - x| := by
  have hmapne : l.map (fun v => |v - x|) ≠ [] := by
    simpa using h
  obtain ⟨h1, h2⟩ := argminList_spec (l.map (fun v => |v - x|)) hmapne
  have h1' : argminAbsDist l x < l.length := by
    have h1c := h1
    rw [List.length_map] at h1c
    exact h1c
  refine ⟨h1', ?_⟩
  intro k hk
  have h2' := h2 k (by simpa using hk)
  rw [getD_map' (fun v => |v - x|) l k 0 0 hk,
    getD_map' (fun v => |v - x|) l (argminList (l.map (fun v => |v - x|))) 0 0
      (by simpa using h1)] at h2'
  exact h2'

/-- Expected behaviour of the raw-panel (pixel-side) delete: the popped entry is
the one nearest the click; equal side counts pop a full pair at that index;
differing side counts pop only the raw entry when it is the last raw entry,
and otherwise pop a full pair at that index (an `IndexError` when the other
side is shorter than that). -/
def removeNearestRawSpec (st : Session) (x : ℚ) : Prop :=
  st.raw_data_marks_x ≠ [] →
    (∀ k, k < st.raw_data_marks_x.length →
      |st.raw_data_marks_x.getD (argminAbsDist st.raw_data_marks_x x) 0 - x| ≤
        |st.raw_data_marks_x.getD k 0 - x|) ∧
    (st.raw_data_marks_x.length = st.reference_marks_x.length →
      delete_raw_mark st x = some { st with
        raw_data_marks_x := st.raw_data_marks_x.eraseIdx (argminAbsDist st.raw_data_marks_x x),
        raw_data_marks_y := st.raw_data_marks_y.eraseIdx (argminAbsDist st.raw_data_marks_x x),
        reference_marks_x := st.reference_marks_x.eraseIdx (argminAbsDist st.raw_data_marks_x x),
        reference_marks_y := st.reference_marks_y.eraseIdx (argminAbsDist st.raw_data_marks_x x) }) ∧
    (st.raw_data_marks_x.length ≠ st.reference_marks_x.length →
      (argminAbsDist st.raw_data_marks_x x = st.raw_data_marks_x.length - 1 →
        delete_raw_mark st x = some { st with
          raw_data_marks_x := st.raw_data_marks_x.eraseIdx (argminAbsDist st.raw_data_marks_x x),
          raw_data_marks_y := st.raw_data_marks_y.eraseIdx (argminAbsDist st.raw_data_marks_x x) }) ∧
      (argminAbsDist st.raw_data_marks_x x ≠ st.raw_data_marks_x.length - 1 →
        (argminAbsDist st.raw_data_marks_x x < st.reference_marks_x.length →
          delete_raw_mark st x = some { st with
            raw_data_marks_x := st.raw_data_marks_x.eraseIdx (argminAbsDist st.raw_data_marks_x x),
            raw_data_marks_y := st.raw_data_marks_y.eraseIdx (argminAbsDist st.raw_data_marks_x x),
            reference_marks_x := st.reference_marks_x.eraseIdx (argminAbsDist st.raw_data_marks_x x),
            reference_marks_y := st.reference_marks_y.eraseIdx (argminAbsDist st.raw_data_marks_x x) }) ∧
        (st.reference_marks_x.length ≤ argminAbsDist st.raw_data_marks_x x →
          delete_raw_mark st x = none)))

/-- Expected behaviour of the reference-panel (wavelength-side) delete, mirror
image of `removeNearestRawSpec`. -/
def removeNearestRefSpec (st : Session) (x : ℚ) : Prop :=
  st.reference_marks_x ≠ [] →
    (∀ k, k < st.reference_marks_x.length →
      |st.reference_marks_x.getD (argminAbsDist st.reference_marks_x x) 0 - x| ≤
        |st.reference_marks_x.getD k 0 - x|) ∧
    (st.raw_data_marks_x.length = st.reference_marks_x.length →
      delete_reference_mark st x = some { st with
        raw_data_marks_x := st.raw_data_marks_x.eraseIdx (argminAbsDist st.reference_marks_x x),
        raw_data_marks_y := st.raw_data_marks_y.eraseIdx (argminAbsDist st.reference_marks_x x),
        reference_marks_x := st.reference_marks_x.eraseIdx (argminAbsDist st.reference_marks_x x),
        reference_marks_y := st.reference_marks_y.eraseIdx (argminAbsDist st.reference_marks_x x) }) ∧
    (st.raw_data_marks_x.length ≠ st.reference_marks_x.length →
      (argminAbsDist st.reference_marks_x x = st.reference_marks_x.length - 1 →
        delete_reference_mark st x = some { st with
          reference_marks_x := st.reference_marks_x.eraseIdx (argminAbsDist st.reference_marks_x x),
          reference_marks_y := st.reference_marks_y.eraseIdx (argminAbsDist st.reference_marks_x x) }) ∧
      (argminAbsDist st.reference_marks_x x ≠ st.reference_marks_x.length - 1 →
        (argminAbsDist st.reference_marks_x x < st.raw_data_marks_x.length →
          delete_reference_mark st x = some { st with
            raw_data_marks_x := st.raw_data_marks_x.eraseIdx (argminAbsDist st.reference_marks_x x),
            raw_data_marks_y := st.raw_data_marks_y.eraseIdx (argminAbsDist st.reference_marks_x x),
            reference_marks_x := st.reference_marks_x.eraseIdx (argminAbsDist st.reference_marks_x x),
            reference_marks_y := st.reference_marks_y.eraseIdx (argminAbsDist st.reference_marks_x x) }) ∧
        (st.raw_data_marks_x.length ≤ argminAbsDist st.reference_marks_x x →
          delete_reference_mark st x = none)))

/-- Claim C4, amended: the delete handlers always target the entry of the
clicked side nearest to the click; with index-aligned sides a full pair at that
index is removed; with differing side counts the lone nearest-side entry is
removed only when it is the last entry of that side, and otherwise a full pair
at that index is removed (failing when the other side is shorter). -/
theorem C4_remove_nearest (st : Session) (x : ℚ)
    (hry : st.raw_data_marks_y.length = st.raw_data_marks_x.length)
    (hfy : st.reference_marks_y.length = st.reference_marks_x.length) :
    removeNearestRawSpec st x ∧ removeNearestRefSpec st x := by
  constructor
  · intro hne
    obtain ⟨hilt, hmin⟩ := argminAbsDist_spec st.raw_data_marks_x x hne
    have hie : st.raw_data_marks_x.isEmpty = false := by
      simpa [List.isEmpty_iff] using hne
    refine ⟨hmin, ?_, ?_⟩
    · intro heq
      have h2 : argminAbsDist st.raw_data_marks_x x < st.raw_data_marks_y.length := by omega
      have h3 : argminAbsDist st.raw_data_marks_x x < st.reference_marks_x.length := by omega
      have h4 : argminAbsDist st.raw_data_marks_x x < st.reference_marks_y.length := by omega
      simp [delete_raw_mark, listPop, hie, heq, hilt, h2, h3, h4]
    · intro hneq
      constructor
      · intro hlast
        have h2 : argminAbsDist st.raw_data_marks_x x < st.raw_data_marks_y.length := by omega
        have h5 : 0 < st.raw_data_marks_x.length := by omega
        have h6 : st.raw_data_marks_x.length - 1 < st.raw_data_marks_y.length := by omega
        simp [delete_raw_mark, listPop, hie, hneq, hlast, hilt, h2, h5, h6]
      · intro hnotlast
        constructor
        · intro hrefin
          have h2 : argminAbsDist st.raw_data_marks_x x < st.raw_data_marks_y.length := by
            omega
          have h4 : argminAbsDist st.raw_data_marks_x x < st.reference_marks_y.length := by
            omega
          simp [delete_raw_mark, listPop, hie, hneq, hnotlast, hilt, h2, hrefin, h4]
        · intro hrefout
          have h2 : argminAbsDist st.raw_data_marks_x x < st.raw_data_marks_y.length := by
            omega
          have h3 : ¬ argminAbsDist st.raw_data_marks_x x < st.reference_marks_x.length := by
            omega
          simp [delete_raw_mark, listPop, hie, hneq, hnotlast, hilt, h2, h3]
  · intro hne
    obtain ⟨hilt, hmin⟩ := argminAbsDist_spec st.reference_marks_x x hne
    have hie : st.reference_marks_x.isEmpty = false := by
      simpa [List.isEmpty_iff] using hne
    refine ⟨hmin, ?_, ?_⟩
    · intro heq
      have h2 : argminAbsDist st.reference_marks_x x < st.reference_marks_y.length := by omega
      have h3 : argminAbsDist st.reference_marks_x x < st.raw_data_marks_x.length := by omega
      have h4 : argminAbsDist st.reference_marks_x x < st.raw_data_marks_y.length := by omega
      simp [delete_reference_mark, listPop, hie, heq, hilt, h2, h3, h4]
    · intro hneq
      constructor
      · intro hlast
        have h2 : argminAbsDist st.reference_marks_x x < st.reference_marks_y.length := by
          omega
        have h5 : 0 < st.reference_marks_x.length := by omega
        have h6 : st.reference_marks_x.length - 1 < st.reference_marks_y.length := by omega
        simp [delete_reference_mark, listPop, hie, hneq, hlast, hilt, h2, h5, h6]
      · intro hnotlast
        constructor
        · intro hrawin
          have h2 : argminAbsDist st.reference_marks_x x < st.reference_marks_y.length := by
            omega
          have h4 : argminAbsDist st.reference_marks_x x < st.raw_data_marks_y.length := by
            omega
          simp [delete_reference_mark, listPop, hie, hneq, hnotlast, hilt, h2, hrawin, h4]
        · intro hrawout
          have h2 : argminAbsDist st.reference_marks_x x < st.reference_marks_y.length := by
            omega
          have h3 : ¬ argminAbsDist st.reference_marks_x x < st.raw_data_marks_x.length := by
            omega
          simp [delete_reference_mark, listPop, hie, hneq, hnotlast, hilt, h2, h3]

/-- A store state with one complete pair `(0, 50)` and a dangling raw entry
`100`: the pixel side holds `[0, 100]`, the wavelength side `[50]`. -/
def sessionC4 : Session :=
  { reference_marks_x := [50], reference_marks_y := [0],
    raw_data_marks_x := [0, 100], raw_data_marks_y := [0, 0],
    wsolution := none, rms_error := none, lines_center := [], refLines := [] }

/-- Claim C4, counterexample: with differing side counts a pixel-side delete at
target `0` removes the full pair `(0, 50)` — the wavelength side shrinks to `[]`
— instead of removing only the dangling unmatched entry `100` as the claim
states (which would leave the wavelength side untouched). -/
theorem C4_counterexample :
    (delete_raw_mark sessionC4 0).map
      (fun s => (s.raw_data_marks_x, s.reference_marks_x)) = some ([100], []) ∧
    sessionC4.raw_data_marks_x.length ≠ sessionC4.reference_marks_x.length := by
  constructor
  · norm_num [delete_raw_mark, sessionC4, argminAbsDist, argminList, argminGo,
      listPop, List.eraseIdx]
  · norm_num [sessionC4]

/-- A store state with four complete pairs, used as the witness input. -/
def sessionC4w : Session :=
  { reference_marks_x := [100, 200, 300, 400], reference_marks_y := [1, 1, 1, 1],
    raw_data_marks_x := [10, 20, 30, 40], raw_data_marks_y := [1, 1, 1, 1],
    wsolution := none, rms_error := none, lines_center := [], refLines := [] }

/-- Witness for `C4_remove_nearest` at the concrete store `sessionC4w`. -/
theorem C4_remove_nearest_witness :
    sessionC4w.raw_data_marks_y.length = sessionC4w.raw_data_marks_x.length ∧
    sessionC4w.reference_marks_y.length = sessionC4w.reference_marks_x.length ∧
    removeNearestRawSpec sessionC4w 19 ∧ removeNearestRefSpec sessionC4w 19 := by
  have h := C4_remove_nearest sessionC4w 19 (by simp [sessionC4w]) (by simp [sessionC4w])
  exact ⟨by simp [sessionC4w], by simp [sessionC4w], h.1, h.2⟩

/-! ## Claim C5: theorems -/

/-- Expected behaviour of the `fit_pixel_to_wavelength` precondition gate:
a model is fitted (and no message emitted) exactly when both mark lists have
equal length of at least 4; with both sides non-empty but one shorter than 4
the generic not-enough-marks message is emitted and the state is unchanged;
with both sides of length at least 4 but unequal, the missing count and side
are reported and the state is unchanged; with an empty side the generic
empty-record message is emitted and any existing model is discarded. -/
def fitGateSpec (fitter : List ℚ → List ℚ → (ℚ → ℚ)) (st : Session) : Prop :=
  (st.reference_marks_x.length = st.raw_data_marks_x.length ∧
      4 ≤ st.reference_marks_x.length →
    (fit_pixel_to_wavelength fitter st).1.wsolution =
      some (fitter st.raw_data_marks_x st.reference_marks_x) ∧
    (fit_pixel_to_wavelength fitter st).2 = none) ∧
  ((fit_pixel_to_wavelength fitter st).2 = none ↔
    st.reference_marks_x.length = st.raw_data_marks_x.length ∧
      4 ≤ st.reference_marks_x.length) ∧
  (st.reference_marks_x ≠ [] → st.raw_data_marks_x ≠ [] →
    (st.reference_marks_x.length < 4 ∨ st.raw_data_marks_x.length < 4) →
    fit_pixel_to_wavelength fitter st = (st, some UserMessage.notEnoughMarks)) ∧
  (4 ≤ st.reference_marks_x.length → 4 ≤ st.raw_data_marks_x.length →
    st.reference_marks_x.length ≠ st.raw_data_marks_x.length →
    (st.reference_marks_x.length < st.raw_data_marks_x.length →
      fit_pixel_to_wavelength fitter st = (st, some (UserMessage.referenceMissing
        (st.raw_data_marks_x.length - st.reference_marks_x.length)))) ∧
    (st.raw_data_marks_x.length < st.reference_marks_x.length →
      fit_pixel_to_wavelength fitter st = (st, some (UserMessage.rawMissing
        (st.reference_marks_x.length - st.raw_data_marks_x.length))))) ∧
  (st.reference_marks_x = [] ∨ st.raw_data_marks_x = [] →
    fit_pixel_to_wavelength fitter st =
      ({ st with wsolution := none }, some UserMessage.clicksRecordEmpty))

/-- Claim C5, amended: the fit gate behaves as `fitGateSpec` describes — in
particular the missing-point count and side are reported only when both sides
already have at least 4 marks; a mismatch combined with fewer than 4 marks on a
side yields only the generic not-enough-marks message, and an empty side yields
the generic empty-record message while discarding any existing model. -/
theorem C5_fit_preconditions (fitter : List ℚ → List ℚ → (ℚ → ℚ)) (st : Session) :
    fitGateSpec fitter st := by
  unfold fitGateSpec fit_pixel_to_wavelength
  by_cases h1 : st.reference_marks_x.length ≠ 0 ∧ 0 < st.raw_data_marks_x.length
  · rw [if_pos h1]
    by_cases h2 : st.reference_marks_x.length < 4 ∨ st.raw_data_marks_x.length < 4
    · rw [if_pos h2]
      refine ⟨?_, ?_, ?_, ?_, ?_⟩
      · intro hc; exfalso; omega
      · exact iff_of_false (by simp) (by omega)
      · intro _ _ _; rfl
      · intro h4a h4b; exfalso; omega
      · intro hemp
        exfalso
        rcases hemp with he | he
        · exact h1.1 (by simp [he])
        · rw [he] at h1; simp at h1
    · rw [if_neg h2]
      by_cases h3 : st.reference_marks_x.length ≠ st.raw_data_marks_x.length
      · rw [if_pos h3]
        by_cases h4 : st.reference_marks_x.length < st.raw_data_marks_x.length
        · rw [if_pos h4]
          refine ⟨?_, ?_, ?_, ?_, ?_⟩
          · intro hc; exfalso; omega
          · exact iff_of_false (by simp) (by omega)
          · intro _ _ hlt; exfalso; omega
          · intro _ _ _
            exact ⟨fun _ => rfl, fun hlt => by omega⟩
          · intro hemp
            exfalso
            rcases hemp with he | he
            · exact h1.1 (by simp [he])
            · rw [he] at h1; simp at h1
        · rw [if_neg h4]
          refine ⟨?_, ?_, ?_, ?_, ?_⟩
          · intro hc; exfalso; omega
          · exact iff_of_false (by simp) (by omega)
          · intro _ _ hlt; exfalso; omega
          · intro _ _ _
            exact ⟨fun hlt => by omega, fun _ => rfl⟩
          · intro hemp
            exfalso
            rcases hemp with he | he
            · exact h1.1 (by simp [he])
            · rw [he] at h1; simp at h1
      · rw [if_neg h3]
        refine ⟨?_, ?_, ?_, ?_, ?_⟩
        · intro _
          exact ⟨by simp [evaluateSession], rfl⟩
        · exact iff_of_true (by simp) ⟨by omega, by omega⟩
        · intro _ _ hlt; exfalso; omega
        · intro _ _ hne; exfalso; omega
        · intro hemp
          exfalso
          rcases hemp with he | he
          · exact h1.1 (by simp [he])
          · rw [he] at h1; simp at h1
  · rw [if_neg h1]
    push_neg at h1
    refine ⟨?_, ?_, ?_, ?_, ?_⟩
    · intro hc; exfalso; omega
    · exact iff_of_false (by simp) (by omega)
    · intro hne1 hne2 _
      exfalso
      have hp1 : 0 < st.reference_marks_x.length := List.length_pos.mpr hne1
      have hp2 : 0 < st.raw_data_marks_x.length := List.length_pos.mpr hne2
      omega
    · intro h4a h4b _; exfalso; omega
    · intro _; rfl

/-- An arbitrary concrete stand-in for the external Chebyshev fitter. -/
def fitter0 : List ℚ → List ℚ → ℚ → ℚ := fun _ _ v => v

/-- A mark state with mismatched side counts, one side shorter than 4 marks. -/
def sessionC5 : Session :=
  { reference_marks_x := [4000, 4500], reference_marks_y := [1, 1],
    raw_data_marks_x := [100, 200, 300], raw_data_marks_y := [1, 1, 1],
    wsolution := none, rms_error := none, lines_center := [], refLines := [] }

/-- Claim C5, counterexample: with 2 wavelength marks and 3 pixel marks the side
counts differ, yet the emitted message is the generic not-enough-marks message —
it does not report how many points of which side are missing. -/
theorem C5_counterexample :
    (fit_pixel_to_wavelength fitter0 sessionC5).2 = some UserMessage.notEnoughMarks ∧
    sessionC5.reference_marks_x.length ≠ sessionC5.raw_data_marks_x.length := by
  constructor
  · norm_num [fit_pixel_to_wavelength, sessionC5]
  · norm_num [sessionC5]

/-- A mark state with four complete pairs (fit preconditions satisfied). -/
def sessionC5w : Session :=
  { reference_marks_x := [4000, 4500, 5100, 5800], reference_marks_y := [1, 1, 1, 1],
    raw_data_marks_x := [200, 500, 900, 1400], raw_data_marks_y := [1, 1, 1, 1],
    wsolution := none, rms_error := none, lines_center := [], refLines := [] }

/-- Witness for `C5_fit_preconditions` at the concrete state `sessionC5w`:
the gate specification holds there and the fit actually goes through. -/
theorem C5_fit_preconditions_witness :
    fitGateSpec fitter0 sessionC5w ∧
    (fit_pixel_to_wavelength fitter0 sessionC5w).2 = none :=
  ⟨C5_fit_preconditions fitter0 sessionC5w,
    ((C5_fit_preconditions fitter0 sessionC5w).2.1).mpr (by norm_num [sessionC5w])⟩

/-! ## Claim C7: theorems -/

/-- Claim C7, amended: with no fitted model, solution evaluation fails with the
no-solution message, returns no result and leaves the session unchanged;
spectrum linearization also returns no result and leaves the session unchanged,
but surfaces no message at all (its `None` branch is silent). -/
theorem C7_no_solution (st : Session) (data : List ℚ)
    (splev : List ℚ → List ℚ → ℚ → ℚ) (h : st.wsolution = none) :
    evaluateSession st = (none, st, some UserMessage.solutionNonExistent) ∧
    linearize_spectrum splev st data = (none, st, none) := by
  constructor
  · simp [evaluateSession, h]
  · simp [linearize_spectrum, h]

/-- An arbitrary concrete stand-in for the external spline resampler. -/
def splev0 : List ℚ → List ℚ → ℚ → ℚ := fun _ _ v => v

/-- A session without a fitted dispersion model. -/
def sessionC7 : Session :=
  { reference_marks_x := [], reference_marks_y := [],
    raw_data_marks_x := [], raw_data_marks_y := [],
    wsolution := none, rms_error := none, lines_center := [1], refLines := [1] }

/-- Claim C7, counterexample: invoking linearization with no fitted model
produces no message at all — in particular not the no-solution message — so the
failure is not surfaced as a message as the claim states. -/
theorem C7_counterexample :
    sessionC7.wsolution = none ∧
    (linearize_spectrum splev0 sessionC7 [1, 2]).2.2 = none ∧
    (linearize_spectrum splev0 sessionC7 [1, 2]).2.2 ≠
      some UserMessage.solutionNonExistent := by
  refine ⟨rfl, ?_, ?_⟩
  · simp [linearize_spectrum, sessionC7]
  · simp [linearize_spectrum, sessionC7]

/-- Witness for `C7_no_solution` at the concrete session `sessionC7`. -/
theorem C7_no_solution_witness :
    sessionC7.wsolution = none ∧
    (evaluateSession sessionC7 = (none, sessionC7, some UserMessage.solutionNonExistent) ∧
      linearize_spectrum splev0 sessionC7 [1, 2] = (none, sessionC7, none)) :=
  ⟨rfl, C7_no_solution sessionC7 [1, 2] splev0 rfl⟩

/-! ## Claims C6 and C10: theorems -/

lemma clipStep_length (sigma : ℚ) (data : List ℚ) (mask : List Bool)
    (h : mask.length = data.length) : (clipStep sigma data mask).length = data.length := by
  simp [clipStep, h]

lemma sigmaClipIter_length (sigma : ℚ) (data : List ℚ) :
    ∀ (n : ℕ) (mask : List Bool), mask.length = data.length →
      (sigmaClipIter sigma data n mask).length = data.length := by
  intro n
  induction n with
  | zero => intro mask h; simpa [sigmaClipIter] using h
  | succ n ih =>
    intro mask h
    rw [sigmaClipIter]
    exact ih _ (clipStep_length sigma data mask h)

lemma sigmaClipMask_length (sigma : ℚ) (iters : ℕ) (data : List ℚ) :
    (sigmaClipMask sigma iters data).length = data.length :=
  sigmaClipIter_length sigma data iters _ (by simp)

lemma survivorsOf_length :
    ∀ (data : List ℚ) (mask : List Bool), mask.length = data.length →
      (survivorsOf data mask).length = data.length - mask.count true := by
  intro data
  induction data with
  | nil => intro mask h; simp [survivorsOf]
  | cons d ds ih =>
    intro mask h
    cases mask with
    | nil => simp at h
    | cons m ms =>
      have hms : ms.length = ds.length := by simpa using h
      have hcount : ms.count true ≤ ms.length := List.count_le_length _ _
      cases m with
      | false =>
        have := ih ms hms
        simp [survivorsOf, List.zip_cons_cons, List.filterMap_cons] at this ⊢
        omega
      | true =>
        have := ih ms hms
        simp [survivorsOf, List.zip_cons_cons, List.filterMap_cons] at this ⊢
        omega

lemma residualsOf_length (w : ℚ → ℚ) (lines refs : List ℚ) :
    (residualsOf w lines refs).length = lines.length := by
  simp [residualsOf]

lemma nearestReference_spec (refs : List ℚ) (v : ℚ) (h : refs ≠ []) :
    nearestReference refs v ∈ refs ∧
    ∀ c ∈ refs, |nearestReference refs v - v| ≤ |c - v| := by
  obtain ⟨hlt, hmin⟩ := argminAbsDist_spec refs v h
  constructor
  · rw [nearestReference, List.getD_eq_getElem _ _ hlt]
    exact List.getElem_mem hlt
  · intro c hc
    obtain ⟨k, hk, hck⟩ := List.mem_iff_getElem.mp hc
    have := hmin k hk
    rw [← List.getD_eq_getElem refs 0 hk] at hck
    rw [nearestReference, ← hck]
    exact this

/-- Expected result of `evaluate_solution` with a fitted model, as the
specification describes it: residuals are predicted-minus-nearest-catalog-line,
the rejection mask is the 5-iteration sigma-2 median-centred clip, and the
reported radicand is the mean of the squares of the surviving residuals (the
reported RMS being its square root). -/
def evalPipelineSpec (st : Session) (w : ℚ → ℚ) : Prop :=
  ∃ r,
    evaluateSession st = (some r, { st with rms_error := some r.rms_sq }, none) ∧
    (∀ i, i < st.lines_center.length →
      ∃ m, m ∈ st.refLines ∧
        (residualsOf w st.lines_center st.refLines).getD i 0 =
          w (st.lines_center.getD i 0) - m ∧
        ∀ c ∈ st.refLines,
          |m - w (st.lines_center.getD i 0)| ≤ |c - w (st.lines_center.getD i 0)|) ∧
    r.rms_sq =
      ((survivorsOf (residualsOf w st.lines_center st.refLines)
          (sigmaClipMask 2 5 (residualsOf w st.lines_center st.refLines))).map
        (fun d => d ^ 2)).sum /
      (((survivorsOf (residualsOf w st.lines_center st.refLines)
          (sigmaClipMask 2 5 (residualsOf w st.lines_center st.refLines))).map
        (fun d => d ^ 2)).length : ℚ) ∧
    Real.sqrt (r.rms_sq : ℝ) =
      Real.sqrt ((((survivorsOf (residualsOf w st.lines_center st.refLines)
          (sigmaClipMask 2 5 (residualsOf w st.lines_center st.refLines))).map
        (fun d => d ^ 2)).sum /
      (((survivorsOf (residualsOf w st.lines_center st.refLines)
          (sigmaClipMask 2 5 (residualsOf w st.lines_center st.refLines))).map
        (fun d => d ^ 2)).length : ℚ) : ℚ) : ℝ)

/-- Claim C6: with a fitted model, evaluation maps each detected line through the
model, takes the residual against the nearest catalog wavelength, clips with the
iterative sigma-2, 5-iteration, median-centred mask, and reports as RMS the
square root of the mean of the surviving squared residuals; the returned triple
and stored state are exactly determined by that pipeline (so the single-iteration
clip `onceClippedMask` influences only the diagnostic-plot display range). -/
theorem C6_evaluation_pipeline (st : Session) (w : ℚ → ℚ)
    (h : st.wsolution = some w) (href : st.refLines ≠ []) :
    evalPipelineSpec st w := by
  refine ⟨evaluateCore w st.lines_center st.refLines, ?_, ?_, ?_, rfl⟩
  · simp [evaluateSession, h]
  · intro i hi
    refine ⟨nearestReference st.refLines (w (st.lines_center.getD i 0)), ?_, ?_, ?_⟩
    · exact (nearestReference_spec st.refLines (w (st.lines_center.getD i 0)) href).1
    · rw [residualsOf, getD_map' _ _ i 0 0 hi]
    · intro c hc
      have := (nearestReference_spec st.refLines (w (st.lines_center.getD i 0)) href).2 c hc
      calc |nearestReference st.refLines (w (st.lines_center.getD i 0)) -
              w (st.lines_center.getD i 0)| ≤ |c - w (st.lines_center.getD i 0)| := this
        _ = _ := rfl
  · rfl

/-- Expected counting behaviour of `evaluate_solution`: `npoints` is the total
residual count including rejections, `n_rejections` the masked count, and the
radicand is averaged over exactly `npoints - n_rejections` squared residuals. -/
def evalCountsSpec (st : Session) (w : ℚ → ℚ) : Prop :=
  ∃ r st',
    evaluateSession st = (some r, st', none) ∧
    r.npoints = st.lines_center.length ∧
    r.n_rejections =
      (sigmaClipMask 2 5 (residualsOf w st.lines_center st.refLines)).count true ∧
    (survivorsOf (residualsOf w st.lines_center st.refLines)
        (sigmaClipMask 2 5 (residualsOf w st.lines_center st.refLines))).length =
      r.npoints - r.n_rejections ∧
    r.rms_sq =
      ((survivorsOf (residualsOf w st.lines_center st.refLines)
          (sigmaClipMask 2 5 (residualsOf w st.lines_center st.refLines))).map
        (fun d => d ^ 2)).sum / ((r.npoints - r.n_rejections : ℕ) : ℚ) ∧
    r.n_rejections ≤ r.npoints

/-- Claim C10: `n_points` equals the total number of residuals including the
rejected ones, `n_rejected` the number masked by the sigma clip, the radicand of
the reported RMS is averaged over exactly `n_points − n_rejected` squared
residuals, and `n_rejected ≤ n_points`. -/
theorem C10_evaluation_counts (st : Session) (w : ℚ → ℚ)
    (h : st.wsolution = some w) : evalCountsSpec st w := by
  have hmasklen : (sigmaClipMask 2 5 (residualsOf w st.lines_center st.refLines)).length =
      (residualsOf w st.lines_center st.refLines).length :=
    sigmaClipMask_length 2 5 _
  have hsurv := survivorsOf_length (residualsOf w st.lines_center st.refLines)
    (sigmaClipMask 2 5 (residualsOf w st.lines_center st.refLines)) hmasklen
  have hcount : (sigmaClipMask 2 5 (residualsOf w st.lines_center st.refLines)).count true ≤
      (residualsOf w st.lines_center st.refLines).length := by
    calc (sigmaClipMask 2 5 (residualsOf w st.lines_center st.refLines)).count true ≤
        (sigmaClipMask 2 5 (residualsOf w st.lines_center st.refLines)).length :=
          List.count_le_length _ _
      _ = _ := hmasklen
  refine ⟨evaluateCore w st.lines_center st.refLines,
    { st with rms_error := some (evaluateCore w st.lines_center st.refLines).rms_sq },
    by simp [evaluateSession, h], ?_, rfl, ?_, ?_, ?_⟩
  · simp [evaluateCore, residualsOf_length]
  · rw [hsurv]
    simp [evaluateCore, residualsOf_length]
  · show ((survivorsOf _ _).map (fun d => d ^ 2)).sum /
        (((survivorsOf _ _).map (fun d => d ^ 2)).length : ℚ) = _
    rw [List.length_map, hsurv]
    simp [evaluateCore, residualsOf_length]
  · simp only [evaluateCore, residualsOf_length]
    rw [residualsOf_length] at hcount
    exact hcount

/-- A session with a fitted identity model, two detected lines and a
two-line reference catalog. -/
def sessionC6 : Session :=
  { reference_marks_x := [], reference_marks_y := [],
    raw_data_marks_x := [], raw_data_marks_y := [],
    wsolution := some (fun v => v), rms_error := none,
    lines_center := [1, 2], refLines := [1, 2] }

/-- Witness for `C6_evaluation_pipeline` at the concrete session `sessionC6`. -/
theorem C6_evaluation_pipeline_witness :
    sessionC6.wsolution = some (fun v => v) ∧ sessionC6.refLines ≠ [] ∧
    evalPipelineSpec sessionC6 (fun v => v) :=
  ⟨rfl, by simp [sessionC6],
    C6_evaluation_pipeline sessionC6 (fun v => v) rfl (by simp [sessionC6])⟩

/-- Witness for `C10_evaluation_counts` at the concrete session `sessionC6`. -/
theorem C10_evaluation_counts_witness :
    sessionC6.wsolution = some (fun v => v) ∧
    evalCountsSpec sessionC6 (fun v => v) :=
  ⟨rfl, C10_evaluation_counts sessionC6 (fun v => v) rfl⟩

/-! ## Claim C8: theorems -/

lemma linspace_getD (a b : ℚ) (n i : ℕ) (h : i < n) :
    (linspace a b n).getD i 0 = a + (b - a) * i / ((n : ℚ) - 1) := by
  rw [linspace, getD_map' (fun i : ℕ => a + (b - a) * (i : ℚ) / ((n : ℚ) - 1))
    (List.range n) i 0 0 (by simpa using h)]
  rw [List.getD_eq_getElem _ _ (by simpa using h), List.getElem_range]

/-- Expected shape of the linearized wavelength axis: same sample count as the
input spectrum, first sample the model at pixel 1, last sample the model at the
last pixel, and exactly uniform spacing. -/
def linearAxisSpec (splev : List ℚ → List ℚ → ℚ → ℚ) (st : Session)
    (data : List ℚ) (w : ℚ → ℚ) : Prop :=
  ∃ axis resampled,
    linearize_spectrum splev st data = (some (axis, resampled), st, none) ∧
    axis.length = data.length ∧
    axis.getD 0 0 = w 1 ∧
    axis.getD (data.length - 1) 0 = w data.length ∧
    ∀ i, i + 1 < data.length →
      axis.getD (i + 1) 0 - axis.getD i 0 =
        (w data.length - w 1) / ((data.length : ℚ) - 1)

/-- Claim C8: with a fitted model, linearization returns a wavelength axis with
exactly as many samples as the input spectrum, exactly uniform spacing, first
sample the model at pixel 1 and last sample the model at the last pixel. -/
theorem C8_linearize_axis (st : Session) (w : ℚ → ℚ) (data : List ℚ)
    (splev : List ℚ → List ℚ → ℚ → ℚ) (h : st.wsolution = some w)
    (hne : data ≠ []) : linearAxisSpec splev st data w := by
  have hn : 0 < data.length := List.length_pos.mpr hne
  have hA : ((List.range' 1 data.length).map (fun p : ℕ => w (p : ℚ))).getD 0 0 = w 1 := by
    rw [getD_map' (fun p : ℕ => w (p : ℚ)) (List.range' 1 data.length) 0 0 0
      (by simpa using hn)]
    have h0 : (List.range' 1 data.length).getD 0 0 = 1 := by
      rw [List.getD_eq_getElem _ _ (by simpa using hn), List.getElem_range']
    rw [h0]
    norm_num
  have hxlen : ((List.range' 1 data.length).map (fun p : ℕ => w (p : ℚ))).length =
      data.length := by simp
  have hB : ((List.range' 1 data.length).map (fun p : ℕ => w (p : ℚ))).getD
      (data.length - 1) 0 = w data.length := by
    rw [getD_map' (fun p : ℕ => w (p : ℚ)) (List.range' 1 data.length)
      (data.length - 1) 0 0 (by simp; omega)]
    have h0 : (List.range' 1 data.length).getD (data.length - 1) 0 = data.length := by
      rw [List.getD_eq_getElem _ _ (by simp; omega), List.getElem_range']
      omega
    rw [h0]
  have heval : linearize_spectrum splev st data =
      (some (linspace (w 1) (w data.length) data.length,
        medfilt3 ((linspace (w 1) (w data.length) data.length).map
          (fun nx => splev ((List.range' 1 data.length).map (fun p : ℕ => w (p : ℚ)))
            data nx))), st, none) := by
    rw [linearize_spectrum, h]
    simp only [hxlen, hA, hB]
  refine ⟨linspace (w 1) (w data.length) data.length, _, heval, by simp [linspace], ?_, ?_, ?_⟩
  · rw [linspace_getD _ _ _ 0 hn]
    norm_num
  · by_cases h1 : data.length = 1
    · rw [linspace_getD _ _ _ (data.length - 1) (by omega)]
      rw [h1]
      norm_num
    · have h2 : 2 ≤ data.length := by omega
      have hcast : ((data.length : ℚ) - 1) ≠ 0 := by
        have : (2 : ℚ) ≤ (data.length : ℚ) := by exact_mod_cast h2
        linarith
      rw [linspace_getD _ _ _ (data.length - 1) (by omega)]
      have hc : ((data.length - 1 : ℕ) : ℚ) = (data.length : ℚ) - 1 := by
        push_cast [Nat.one_le_iff_ne_zero.mpr (by omega : data.length ≠ 0)]
        ring
      rw [hc]
      field_simp
  · intro i hi
    have h2 : 2 ≤ data.length := by omega
    have hcast : ((data.length : ℚ) - 1) ≠ 0 := by
      have : (2 : ℚ) ≤ (data.length : ℚ) := by exact_mod_cast h2
      linarith
    rw [linspace_getD _ _ _ (i + 1) hi, linspace_getD _ _ _ i (by omega)]
    push_cast
    field_simp
    ring

/-- A session with a fitted identity model, used as the linearization witness. -/
def sessionC8 : Session :=
  { reference_marks_x := [], reference_marks_y := [],
    raw_data_marks_x := [], raw_data_marks_y := [],
    wsolution := some (fun v => v), rms_error := none,
    lines_center := [], refLines := [] }

/-- Witness for `C8_linearize_axis` at the spectrum `[10, 20, 30]`. -/
theorem C8_linearize_axis_witness :
    sessionC8.wsolution = some (fun v => v) ∧ ([10, 20, 30] : List ℚ) ≠ [] ∧
    linearAxisSpec splev0 sessionC8 [10, 20, 30] (fun v => v) :=
  ⟨rfl, by simp,
    C8_linearize_axis sessionC8 (fun v => v) [10, 20, 30] splev0 rfl (by simp)⟩

/-! ## WavelengthSolution compatibility: `check_compatibility`
(wavelength.py:1435-1487) -/

/-- The red-camera fingerprint dictionary built by `set_spectral_features`
(wavelength.py:1404-1413). -/
structure RedConfig where
  grating : String
  roi : String
  filter1 : String
  filter2 : String
  slit : String
  instconf : String
  wavmode : String
  cam_ang : ℚ
  grt_ang : ℚ

/-- The blue-camera fingerprint dictionary built by `set_spectral_features`
(wavelength.py:1420-1429). -/
structure BlueConfig where
  grating : String
  ccdsum : String
  filter1 : String
  filter2 : String
  slit : String
  serial_bin : String
  parallel_bin : String
  cam_ang : ℚ
  grt_ang : ℚ

/-- Embedding of `check_compatibility` for a stored red-camera solution against a red-camera
candidate (wavelength.py:1453-1464): the keys `grating`, `roi`, `instconf`,
`wavmode` must match exactly and both angles must agree within 1 degree; the
other dictionary entries (filters, slit) are not compared. -/
def check_compatibility_red (stored cand : RedConfig) : Bool :=
  if cand.grating ≠ stored.grating then false
  else if cand.roi ≠ stored.roi then false
  else if cand.instconf ≠ stored.instconf then false
  else if cand.wavmode ≠ stored.wavmode then false
  else if 1 < |cand.cam_ang - stored.cam_ang| then false
  else if 1 < |cand.grt_ang - stored.grt_ang| then false
  else true

/-- Embedding of `check_compatibility` for a stored blue-camera solution against a
blue-camera candidate (wavelength.py:1467-1481): the keys `grating`, `ccdsum`,
`serial_bin`, `parallel_bin` must match exactly and both angles must agree
within 1 degree. -/
def check_compatibility_blue (stored cand : BlueConfig) : Bool :=
  if cand.grating ≠ stored.grating then false
  else if cand.ccdsum ≠ stored.ccdsum then false
  else if cand.serial_bin ≠ stored.serial_bin then false
  else if cand.parallel_bin ≠ stored.parallel_bin then false
  else if 1 < |cand.cam_ang - stored.cam_ang| then false
  else if 1 < |cand.grt_ang - stored.grt_ang| then false
  else true

/-- Claim C9: the compatibility check returns true exactly when all
camera-variant-specific exact-match keys agree and both angles differ by at
most 1 degree; in particular a grating-angle difference of 1.5° yields false
and one of 0.5° yields true with all other keys equal. -/
theorem C9_compatibility :
    (∀ s c : RedConfig, check_compatibility_red s c = true ↔
      (c.grating = s.grating ∧ c.roi = s.roi ∧ c.instconf = s.instconf ∧
        c.wavmode = s.wavmode ∧ |c.cam_ang - s.cam_ang| ≤ 1 ∧
        |c.grt_ang - s.grt_ang| ≤ 1)) ∧
    (∀ s c : BlueConfig, check_compatibility_blue s c = true ↔
      (c.grating = s.grating ∧ c.ccdsum = s.ccdsum ∧ c.serial_bin = s.serial_bin ∧
        c.parallel_bin = s.parallel_bin ∧ |c.cam_ang - s.cam_ang| ≤ 1 ∧
        |c.grt_ang - s.grt_ang| ≤ 1)) ∧
    (∀ s : RedConfig,
      check_compatibility_red s { s with grt_ang := s.grt_ang + 3/2 } = false) ∧
    (∀ s : RedConfig,
      check_compatibility_red s { s with grt_ang := s.grt_ang + 1/2 } = true) := by
  have hred : ∀ s c : RedConfig, check_compatibility_red s c = true ↔
      (c.grating = s.grating ∧ c.roi = s.roi ∧ c.instconf = s.instconf ∧
        c.wavmode = s.wavmode ∧ |c.cam_ang - s.cam_ang| ≤ 1 ∧
        |c.grt_ang - s.grt_ang| ≤ 1) := by
    intro s c
    unfold check_compatibility_red
    split_ifs with h1 h2 h3 h4 h5 h6
    · exact iff_of_false (by simp) (fun hc => h1 hc.1)
    · exact iff_of_false (by simp) (fun hc => h2 hc.2.1)
    · exact iff_of_false (by simp) (fun hc => h3 hc.2.2.1)
    · exact iff_of_false (by simp) (fun hc => h4 hc.2.2.2.1)
    · exact iff_of_false (by simp) (fun hc => absurd hc.2.2.2.2.1 (not_le.mpr h5))
    · exact iff_of_false (by simp) (fun hc => absurd hc.2.2.2.2.2 (not_le.mpr h6))
    · exact iff_of_true rfl ⟨not_ne_iff.mp h1, not_ne_iff.mp h2, not_ne_iff.mp h3,
        not_ne_iff.mp h4, not_lt.mp h5, not_lt.mp h6⟩
  have hblue : ∀ s c : BlueConfig, check_compatibility_blue s c = true ↔
      (c.grating = s.grating ∧ c.ccdsum = s.ccdsum ∧ c.serial_bin = s.serial_bin ∧
        c.parallel_bin = s.parallel_bin ∧ |c.cam_ang - s.cam_ang| ≤ 1 ∧
        |c.grt_ang - s.grt_ang| ≤ 1) := by
    intro s c
    unfold check_compatibility_blue
    split_ifs with h1 h2 h3 h4 h5 h6
    · exact iff_of_false (by simp) (fun hc => h1 hc.1)
    · exact iff_of_false (by simp) (fun hc => h2 hc.2.1)
    · exact iff_of_false (by simp) (fun hc => h3 hc.2.2.1)
    · exact iff_of_false (by simp) (fun hc => h4 hc.2.2.2.1)
    · exact iff_of_false (by simp) (fun hc => absurd hc.2.2.2.2.1 (not_le.mpr h5))
    · exact iff_of_false (by simp) (fun hc => absurd hc.2.2.2.2.2 (not_le.mpr h6))
    · exact iff_of_true rfl ⟨not_ne_iff.mp h1, not_ne_iff.mp h2, not_ne_iff.mp h3,
        not_ne_iff.mp h4, not_lt.mp h5, not_lt.mp h6⟩
  refine ⟨hred, hblue, ?_, ?_⟩
  · intro s
    rw [Bool.eq_false_iff]
    intro htrue
    have hgrt := ((hred s _).mp htrue).2.2.2.2.2
    have hval : |s.grt_ang + 3/2 - s.grt_ang| = 3/2 := by
      rw [show s.grt_ang + 3/2 - s.grt_ang = 3/2 by ring]
      norm_num
    rw [hval] at hgrt
    norm_num at hgrt
  · intro s
    refine (hred s _).mpr ⟨rfl, rfl, rfl, rfl, ?_, ?_⟩
    · rw [show s.cam_ang - s.cam_ang = 0 by ring, abs_zero]
      norm_num
    · rw [show s.grt_ang + 1/2 - s.grt_ang = 1/2 by ring]
      norm_num [abs_le]

end Goodman
